import Mathlib

/-!
# Verification of the image-hosting microservice (`src/main.go`)

Shallow embedding of the Go image microservice: the upload, download,
list and delete HTTP handlers, together with the validation and ETag
helpers, are translated into pure Lean functions over an explicit
server state (an association-list filesystem, a directory set, and a
list of database rows).  External collaborators (the MySQL engine, the
`crypto/sha256` package, the `uuid` generator) are modelled by their
documented behaviour: row filtering/updating for SQL, the FIPS-180-4
SHA-256 algorithm for the hash, and an explicit stream of fresh
identifier strings for the UUID source.

Machine integers are modelled as `Nat` with explicit reduction
`% 2^32` where 32-bit overflow matters (the SHA-256 compression).
-/

namespace ImageSvc

/-! ## Bytes and UTF-8

Go's `[]byte(s)` is the UTF-8 encoding of the string; bytes are `Nat`
values below 256. -/

/-- A byte sequence (each entry intended `< 256`). -/
abbrev Bytes := List Nat

/-- UTF-8 encoding of one Unicode scalar value, as Go's string-to-bytes
conversion produces it. -/
def charUtf8 (c : Char) : Bytes :=
  let n := c.toNat
  if n < 128 then [n]
  else if n < 2048 then
    [192 ||| (n >>> 6), 128 ||| (n &&& 63)]
  else if n < 65536 then
    [224 ||| (n >>> 12), 128 ||| ((n >>> 6) &&& 63), 128 ||| (n &&& 63)]
  else
    [240 ||| (n >>> 18), 128 ||| ((n >>> 12) &&& 63),
     128 ||| ((n >>> 6) &&& 63), 128 ||| (n &&& 63)]

/-- Go `[]byte(s)`: UTF-8 bytes of a string. -/
def utf8Bytes (s : String) : Bytes :=
  s.data.flatMap charUtf8

/-! ## SHA-256 (the `crypto/sha256` collaborator)

FIPS 180-4 SHA-256 over byte lists, on `Nat` with explicit `% 2^32`. -/

/-- Truncate to a 32-bit word. -/
def w32 (n : Nat) : Nat := n % 4294967296

/-- Rotate a 32-bit word right by `n` bits. -/
def rotr (n x : Nat) : Nat := w32 ((x >>> n) ||| (x <<< (32 - n)))

/-- SHA-256 `Ch(e,f,g)`. -/
def chF (e f g : Nat) : Nat := (e &&& f) ^^^ ((e ^^^ 4294967295) &&& g)

/-- SHA-256 `Maj(a,b,c)`. -/
def majF (a b c : Nat) : Nat := (a &&& b) ^^^ (a &&& c) ^^^ (b &&& c)

/-- SHA-256 `Σ0`. -/
def bigSigma0 (x : Nat) : Nat := rotr 2 x ^^^ rotr 13 x ^^^ rotr 22 x

/-- SHA-256 `Σ1`. -/
def bigSigma1 (x : Nat) : Nat := rotr 6 x ^^^ rotr 11 x ^^^ rotr 25 x

/-- SHA-256 `σ0`. -/
def smallSigma0 (x : Nat) : Nat := rotr 7 x ^^^ rotr 18 x ^^^ (x >>> 3)

/-- SHA-256 `σ1`. -/
def smallSigma1 (x : Nat) : Nat := rotr 17 x ^^^ rotr 19 x ^^^ (x >>> 10)

/-- The 64 SHA-256 round constants (decimal renderings of the
FIPS 180-4 table). -/
def sha256K : List Nat :=
  [1116352408, 1899447441, 3049323471, 3921009573, 961987163, 1508970993,
   2453635748, 2870763221, 3624381080, 310598401, 607225278, 1426881987,
   1925078388, 2162078206, 2614888103, 3248222580, 3835390401, 4022224774,
   264347078, 604807628, 770255983, 1249150122, 1555081692, 1996064986,
   2554220882, 2821834349, 2952996808, 3210313671, 3336571891, 3584528711,
   113926993, 338241895, 666307205, 773529912, 1294757372, 1396182291,
   1695183700, 1986661051, 2177026350, 2456956037, 2730485921, 2820302411,
   3259730800, 3345764771, 3516065817, 3600352804, 4094571909, 275423344,
   430227734, 506948616, 659060556, 883997877, 958139571, 1322822218,
   1537002063, 1747873779, 1955562222, 2024104815, 2227730452, 2361852424,
   2428436474, 2756734187, 3204031479, 3329325298]

/-- The eight 32-bit working variables of the SHA-256 compression. -/
structure Hv where
  a : Nat
  b : Nat
  c : Nat
  d : Nat
  e : Nat
  f : Nat
  g : Nat
  h : Nat
deriving Repr, DecidableEq

/-- The SHA-256 initial hash value. -/
def sha256H0 : Hv :=
  ⟨1779033703, 3144134277, 1013904242, 2773480762,
   1359893119, 2600822924, 528734635, 1541459225⟩

/-- One SHA-256 compression round, fed one `(K[t], W[t])` pair. -/
def shaRound (hv : Hv) (kw : Nat × Nat) : Hv :=
  let t1 := w32 (hv.h + bigSigma1 hv.e + chF hv.e hv.f hv.g + kw.1 + kw.2)
  let t2 := w32 (bigSigma0 hv.a + majF hv.a hv.b hv.c)
  ⟨w32 (t1 + t2), hv.a, hv.b, hv.c, w32 (hv.d + t1), hv.e, hv.f, hv.g⟩

/-- Group four big-endian bytes into each 32-bit word. -/
def bytesToWords : Bytes → List Nat
  | b0 :: b1 :: b2 :: b3 :: rest =>
      (b0 * 16777216 + b1 * 65536 + b2 * 256 + b3) :: bytesToWords rest
  | _ => []

/-- Extend the 16 block words with `fuel` further schedule words. -/
def extendSchedule : Nat → List Nat → List Nat
  | 0, ws => ws
  | fuel + 1, ws =>
      let t := ws.length
      let next := w32 (smallSigma1 (ws.getD (t - 2) 0) + ws.getD (t - 7) 0 +
                       smallSigma0 (ws.getD (t - 15) 0) + ws.getD (t - 16) 0)
      extendSchedule fuel (ws ++ [next])

/-- Compress one 64-byte block into the running hash value. -/
def sha256Compress (hv : Hv) (block : Bytes) : Hv :=
  let w := extendSchedule 48 (bytesToWords block)
  let r := (sha256K.zip w).foldl shaRound hv
  ⟨w32 (hv.a + r.a), w32 (hv.b + r.b), w32 (hv.c + r.c), w32 (hv.d + r.d),
   w32 (hv.e + r.e), w32 (hv.f + r.f), w32 (hv.g + r.g), w32 (hv.h + r.h)⟩

/-- SHA-256 padding: `0x80`, zeros to 56 mod 64, then the 64-bit
big-endian bit length. -/
def padMsg (msg : Bytes) : Bytes :=
  let L := msg.length
  let k := (120 - ((L + 1) % 64)) % 64
  let bitLen := 8 * L
  msg ++ [128] ++ List.replicate k 0 ++
    ((List.range 8).map fun i => (bitLen >>> (8 * (7 - i))) &&& 255)

/-- Split a byte list into 64-byte blocks (structural recursion on a
fuel bound so the kernel can evaluate it). -/
def chunks64Fuel : Nat → Bytes → List Bytes
  | 0, _ => []
  | _, [] => []
  | fuel + 1, l => l.take 64 :: chunks64Fuel fuel (l.drop 64)

/-- Split a byte list into 64-byte blocks. -/
def chunks64 (l : Bytes) : List Bytes :=
  chunks64Fuel l.length l

/-- The four big-endian bytes of a 32-bit word. -/
def wordBytes (x : Nat) : Bytes :=
  [(x >>> 24) &&& 255, (x >>> 16) &&& 255, (x >>> 8) &&& 255, x &&& 255]

/-- SHA-256 of a byte sequence: the 32 digest bytes. -/
def sha256 (msg : Bytes) : Bytes :=
  let hv := (chunks64 (padMsg msg)).foldl sha256Compress sha256H0
  [hv.a, hv.b, hv.c, hv.d, hv.e, hv.f, hv.g, hv.h].flatMap wordBytes

/-! ## Hex rendering and `generateETag` -/

/-- One lowercase hex digit, as Go's `%x` verb prints it. -/
def hexChar (n : Nat) : Char :=
  if n < 10 then Char.ofNat (48 + n) else Char.ofNat (87 + n)

/-- The two lowercase hex digits of one byte. -/
def byteHex (b : Nat) : List Char :=
  [hexChar (b / 16), hexChar (b % 16)]

/-- Go `fmt.Sprintf("%x", bs)`: lowercase hex of a byte slice. -/
def bytesToHex (bs : Bytes) : String :=
  String.mk (bs.flatMap byteHex)

/-- `generateETag` from `src/main.go`: quoted lowercase hex of the
first 8 bytes of the SHA-256 of the identifier. -/
def generateETag (id : String) : String :=
  "\"" ++ bytesToHex ((sha256 (utf8Bytes id)).take 8) ++ "\""

/-- FIPS 180-4 test vector: SHA-256 of "abc" (first eight bytes),
checking the embedding of the `crypto/sha256` collaborator. -/
theorem sha256_abc_prefix :
    (sha256 (utf8Bytes "abc")).take 8 =
      [0xba, 0x78, 0x16, 0xbf, 0x8f, 0x01, 0xcf, 0xea] := by
  decide

/-! ## Constants and path/extension helpers -/

/-- `uploadDir` constant. -/
def uploadDir : String := "./uploads"

/-- `maxFileSize = 10 << 20` (10 MiB per image). -/
def maxFileSize : Nat := 10485760

/-- `maxMemory = 32 << 20` (multipart in-memory buffer bound). -/
def maxMemory : Nat := 33554432

/-- `filepath.Join a b` for the simple two-segment joins this service
performs. -/
def pathJoin (a b : String) : String := a ++ "/" ++ b

/-- Scan of the reversed character list for Go's `filepath.Ext`:
collect trailing characters until the last dot; a path separator or
the start of the string first means no extension. -/
def extScan : List Char → List Char → Option String
  | [], _ => none
  | c :: rest, acc =>
      if c = '/' then none
      else if c = '.' then some (String.mk ('.' :: acc))
      else extScan rest (c :: acc)

/-- Go `filepath.Ext`: the suffix beginning at the final dot of the
final path element, or `""` when there is none. -/
def filepathExt (s : String) : String :=
  (extScan s.data.reverse []).getD ""

/-- Go `strings.ToLower` restricted to the ASCII range the service's
extension strings use. -/
def strToLower (s : String) : String :=
  String.mk (s.data.map Char.toLower)

/-- The allowed-extension whitelist of `isValidImageType`. -/
def validExts : List String := [".jpg", ".jpeg", ".png", ".gif", ".webp"]

/-- `isValidImageType` from `src/main.go`: membership of the lowercased
extension in the whitelist (a Go map lookup defaulting to `false`). -/
def isValidImageType (filename : String) : Bool :=
  validExts.contains (strToLower (filepathExt filename))

/-- `getContentType` from `src/main.go`: the MIME map lookup on the
extension exactly as given (NOT lowercased), defaulting to
`application/octet-stream`. -/
def getContentType (ext : String) : String :=
  if ext == ".jpg" then "image/jpeg"
  else if ext == ".jpeg" then "image/jpeg"
  else if ext == ".png" then "image/png"
  else if ext == ".gif" then "image/gif"
  else if ext == ".webp" then "image/webp"
  else "application/octet-stream"

/-! ## Data model

`ImageRow` is the `images` table row (plus the in-memory `URL` field
of the Go `Image` struct, empty unless the listing handler fills it).
The server state is an association-list filesystem (most recent write
first, so a later `os.Create` shadows an earlier file at the same
path), the set of directories created with `MkdirAll`, and the table
rows in insertion order. -/

/-- One row of the `images` table (with the struct's `URL` field). -/
structure ImageRow where
  id : String
  user_id : String
  filename : String
  file_path : String
  mime_type : String
  size_bytes : Nat
  created_at : Nat
  deleted_at : Option Nat
  url : String
deriving Repr, DecidableEq

/-- `ImageResponse`: one per-file success entry of the upload outcome. -/
structure ImageResponse where
  id : String
  user_id : String
  filename : String
  size : Nat
  url : String
deriving Repr, DecidableEq

/-- `UploadResponse`: the aggregate upload outcome. -/
structure UploadResponse where
  success : Bool
  images : List ImageResponse
  errors : List String
deriving Repr, DecidableEq

/-- `ListResponse`: the listing handler's payload. -/
structure ListResponse where
  user_id : String
  total : Nat
  images : List ImageRow
deriving Repr, DecidableEq

/-- One multipart file part: declared header size plus content bytes. -/
structure FilePart where
  filename : String
  size : Nat
  content : Bytes
deriving Repr, DecidableEq

/-- The server-side state: files on disk, created directories, DB rows. -/
structure ServerState where
  fs : List (String × Bytes)
  dirs : List String
  db : List ImageRow
deriving Repr, DecidableEq

/-- `os.Create` + `io.Copy`: write (or overwrite) a file. -/
def fsWrite (fs : List (String × Bytes)) (p : String) (b : Bytes) :
    List (String × Bytes) :=
  (p, b) :: fs

/-- `os.Open` + read: the most recent content at a path. -/
def fsRead (fs : List (String × Bytes)) (p : String) : Option Bytes :=
  (fs.find? (fun e => e.1 == p)).map (fun e => e.2)

/-! ## Upload handler -/

/-- Observable side-effect events of the upload handler, in program
order (used to settle the ordering claims). -/
inductive Ev where
  | mkUserDir (dir : String)
  | sizeCheck (filename : String) (ok : Bool)
  | extCheck (filename : String) (ok : Bool)
  | openFile (filename : String)
  | genId (id : String)
  | createDest (path : String)
  | copyBytes (path : String)
  | insertRow (id : String)
deriving Repr, DecidableEq

/-- State threaded through the per-file loop of `uploadHandler`:
server state, the not-yet-consumed fresh identifiers of the `uuid`
source, the accumulated success/error entries, and the event trace. -/
structure LoopState where
  st : ServerState
  uuids : List String
  images : List ImageResponse
  errors : List String
  trace : List Ev
deriving Repr, DecidableEq

/-- The body of the per-file loop of `uploadHandler` (src/main.go
lines 170-241): size check, extension check, open, UUID generation,
destination computation, create+copy, DB insert; failed checks append
an error string and touch nothing else.  `fileHeader.Open`, the byte
copy and the DB insert of the accepted path are modelled as
succeeding; the claims under verification condition on that. -/
def processFile (userID userDir : String) (now : Nat)
    (ls : LoopState) (fp : FilePart) : LoopState :=
  if fp.size > maxFileSize then
    { ls with
      errors := ls.errors ++ [fp.filename ++ ": excede tamaño máximo de 10MB"],
      trace := ls.trace ++ [Ev.sizeCheck fp.filename false] }
  else if !isValidImageType fp.filename then
    { ls with
      errors := ls.errors ++ [fp.filename ++ ": formato no válido"],
      trace := ls.trace ++ [Ev.sizeCheck fp.filename true,
                            Ev.extCheck fp.filename false] }
  else
    let imageID := ls.uuids.headD ""
    let ext := filepathExt fp.filename
    let fname := imageID ++ ext
    let mimeType := getContentType ext
    let destPath := pathJoin userDir fname
    let row : ImageRow :=
      ⟨imageID, userID, fp.filename, destPath, mimeType,
       fp.content.length, now, none, ""⟩
    { st := { fs := fsWrite ls.st.fs destPath fp.content,
              dirs := ls.st.dirs,
              db := ls.st.db ++ [row] },
      uuids := ls.uuids.tail,
      images := ls.images ++
        [⟨imageID, userID, fp.filename, fp.content.length,
          "/image/" ++ userID ++ "/" ++ imageID⟩],
      errors := ls.errors,
      trace := ls.trace ++
        [Ev.sizeCheck fp.filename true, Ev.extCheck fp.filename true,
         Ev.openFile fp.filename, Ev.genId imageID,
         Ev.createDest destPath, Ev.copyBytes destPath,
         Ev.insertRow imageID] }

/-- The per-file loop over all parts, in order. -/
def processFiles (userID userDir : String) (now : Nat)
    (ls : LoopState) : List FilePart → LoopState
  | [] => ls
  | fp :: rest =>
      processFiles userID userDir now (processFile userID userDir now ls fp) rest

/-- A parsed upload request: whether `ParseMultipartForm` succeeded,
the `user_id` field, and the `images` file parts. -/
structure UploadRequest where
  parseOk : Bool
  user_id : String
  files : List FilePart
deriving Repr, DecidableEq

/-- An upload response: either a single plain `{"error": ...}` object
(`respondError`) or the aggregate `UploadResponse` outcome, each with
its HTTP status. -/
inductive UpResult where
  | plainError (status : Nat) (message : String)
  | outcome (status : Nat) (resp : UploadResponse)
deriving Repr, DecidableEq

/-- Result of running `uploadHandler`: response, new state, trace. -/
structure HandlerResult where
  res : UpResult
  st : ServerState
  trace : List Ev
deriving Repr, DecidableEq

/-- `uploadHandler` from `src/main.go`: parse, require `user_id`,
create the user directory, require at least one file part, run the
per-file loop, then 400/`success=false` exactly when no file
succeeded. -/
def uploadHandler (uuids : List String) (now : Nat) (st : ServerState)
    (req : UploadRequest) : HandlerResult :=
  if !req.parseOk then
    ⟨UpResult.plainError 400 "Error parseando formulario", st, []⟩
  else if req.user_id == "" then
    ⟨UpResult.plainError 400 "user_id es requerido", st, []⟩
  else
    let userDir := pathJoin uploadDir req.user_id
    let st1 : ServerState := { st with dirs := userDir :: st.dirs }
    let tr0 := [Ev.mkUserDir userDir]
    if req.files.isEmpty then
      ⟨UpResult.plainError 400 "No se recibieron imágenes", st1, tr0⟩
    else
      let final := processFiles req.user_id userDir now
        ⟨st1, uuids, [], [], tr0⟩ req.files
      if final.images.isEmpty then
        ⟨UpResult.outcome 400 ⟨false, final.images, final.errors⟩,
         final.st, final.trace⟩
      else
        ⟨UpResult.outcome 200 ⟨true, final.images, final.errors⟩,
         final.st, final.trace⟩

/-! ## Download handler -/

/-- A download response: 404, 500, 304 (headers, no body), or 200
(headers and full body). -/
inductive DlResult where
  | notFound
  | internalError (message : String)
  | notModified (contentType : String) (contentLength : Nat) (etag : String)
  | ok (contentType : String) (contentLength : Nat) (etag : String)
       (body : Bytes)
deriving Repr, DecidableEq

/-- The `WHERE id = ? AND user_id = ? AND deleted_at IS NULL` filter. -/
def rowMatches (imageID userID : String) (r : ImageRow) : Bool :=
  r.id == imageID && r.user_id == userID && r.deleted_at.isNone

/-- `db.QueryRow` of the download query: the first matching row, or
`none` (`sql.ErrNoRows`). -/
def dbLookup (db : List ImageRow) (imageID userID : String) :
    Option ImageRow :=
  db.find? (rowMatches imageID userID)

/-- `downloadHandler` from `src/main.go`: DB lookup (404 on no row),
file open (500 on failure), headers including the ETag, then 304 when
`If-None-Match` equals the ETag (an absent header reads as `""`), else
200 with the file bytes. -/
def downloadHandler (st : ServerState) (userID imageID ifNoneMatch : String) :
    DlResult :=
  match dbLookup st.db imageID userID with
  | none => DlResult.notFound
  | some img =>
    match fsRead st.fs img.file_path with
    | none => DlResult.internalError "Error leyendo imagen"
    | some content =>
      let etag := generateETag imageID
      if ifNoneMatch == etag then
        DlResult.notModified img.mime_type img.size_bytes etag
      else
        DlResult.ok img.mime_type img.size_bytes etag content

/-! ## Listing handler -/

/-- Insert a row into a list sorted by `created_at` descending
(`ORDER BY created_at DESC`). -/
def insertByCreatedDesc (r : ImageRow) :
    List ImageRow → List ImageRow
  | [] => [r]
  | x :: xs =>
      if x.created_at < r.created_at then r :: x :: xs
      else x :: insertByCreatedDesc r xs

/-- Sort rows by `created_at` descending. -/
def sortByCreatedDesc (l : List ImageRow) : List ImageRow :=
  l.foldr insertByCreatedDesc []

/-- `listImagesHandler` from `src/main.go`: all non-deleted rows of
the user, newest first, each with its synthesized retrieval URL. -/
def listImagesHandler (db : List ImageRow) (userID : String) :
    ListResponse :=
  let rows := db.filter fun r => r.user_id == userID && r.deleted_at.isNone
  let images := (sortByCreatedDesc rows).map fun r =>
    { r with url := "/image/" ++ r.user_id ++ "/" ++ r.id }
  ⟨userID, images.length, images⟩

/-! ## Deletion handler -/

/-- A deletion response: 404, or the `{"success": true, ...}` payload
carrying the identifier. -/
inductive DelResult where
  | notFound
  | deleted (id : String)
deriving Repr, DecidableEq

/-- `deleteImageHandler` from `src/main.go`: `UPDATE images SET
deleted_at = NOW() WHERE id = ? AND user_id = ? AND deleted_at IS
NULL`; zero affected rows gives 404, otherwise the confirmation
payload with the identifier. -/
def deleteImageHandler (db : List ImageRow) (userID imageID : String)
    (now : Nat) : DelResult × List ImageRow :=
  let stamped := db.map fun r =>
    if rowMatches imageID userID r then { r with deleted_at := some now } else r
  let affected := (db.filter (rowMatches imageID userID)).length
  if affected == 0 then (DelResult.notFound, stamped)
  else (DelResult.deleted imageID, stamped)

/-! ## General helper lemmas -/

/-- `find?` skips a prefix on which the predicate fails. -/
theorem find?_append_none {α : Type} (p : α → Bool) (l₁ l₂ : List α)
    (h : ∀ x ∈ l₁, p x = false) :
    List.find? p (l₁ ++ l₂) = List.find? p l₂ := by
  rw [List.find?_append]
  have h1 : List.find? p l₁ = none := by
    rw [List.find?_eq_none]
    intro x hx
    simp [h x hx]
  rw [h1, Option.none_or]

/-- The lowercase hex alphabet of Go's `%x`. -/
def hexDigits : List Char :=
  "0123456789abcdef".data

/-- `hexChar` lands in the lowercase hex alphabet. -/
theorem hexChar_mem : ∀ n < 16, hexChar n ∈ hexDigits := by decide

/-- Both hex digits of a byte are lowercase hex characters. -/
theorem byteHex_mem (b : Nat) (hb : b < 256) :
    ∀ c ∈ byteHex b, c ∈ hexDigits := by
  intro c hc
  simp only [byteHex, List.mem_cons, List.not_mem_nil, or_false] at hc
  rcases hc with h | h <;> subst h
  · exact hexChar_mem (b / 16) ((Nat.div_lt_iff_lt_mul (by omega)).mpr (by omega))
  · exact hexChar_mem (b % 16) (Nat.mod_lt _ (by omega))

/-- Hex rendering yields two characters per byte. -/
theorem flatMap_byteHex_length (bs : Bytes) :
    (bs.flatMap byteHex).length = 2 * bs.length := by
  induction bs with
  | nil => simp
  | cons b rest ih =>
      simp only [List.flatMap_cons, List.length_append, ih, byteHex,
        List.length_cons, List.length_nil, List.length_cons]
      omega

/-- `bytesToHex` has twice as many characters as there are bytes. -/
theorem bytesToHex_length (bs : Bytes) :
    (bytesToHex bs).length = 2 * bs.length := by
  simpa [bytesToHex, String.length] using flatMap_byteHex_length bs

/-- Each of the four big-endian bytes of a word is below 256. -/
theorem wordBytes_lt (x : Nat) : ∀ b ∈ wordBytes x, b < 256 := by
  intro b hb
  simp only [wordBytes, List.mem_cons, List.not_mem_nil, or_false] at hb
  rcases hb with h | h | h | h <;> subst h <;>
    exact Nat.lt_succ_of_le Nat.and_le_right

/-- A SHA-256 digest is 32 bytes long. -/
theorem sha256_length (m : Bytes) : (sha256 m).length = 32 := by
  simp [sha256, wordBytes]

/-- Every SHA-256 digest byte is below 256. -/
theorem sha256_byte_lt (m : Bytes) : ∀ b ∈ sha256 m, b < 256 := by
  intro b hb
  simp only [sha256, List.mem_flatMap] at hb
  obtain ⟨x, _, hbx⟩ := hb
  exact wordBytes_lt x b hbx

/-- The shape of `generateETag`. -/
theorem generateETag_eq (id : String) :
    generateETag id =
      "\"" ++ bytesToHex ((sha256 (utf8Bytes id)).take 8) ++ "\"" := rfl

/-- An ETag is always exactly 18 characters: 16 hex digits in quotes. -/
theorem generateETag_length (id : String) : (generateETag id).length = 18 := by
  rw [generateETag_eq]
  rw [String.length_append, String.length_append, bytesToHex_length]
  rw [List.length_take, sha256_length]
  rfl

/-- An ETag is never the empty string (so an absent `If-None-Match`
header, read as `""`, never matches). -/
theorem generateETag_ne_empty (id : String) : generateETag id ≠ "" := by
  intro h
  have := generateETag_length id
  rw [h] at this
  simp [String.length] at this

/-- Membership in the insertion step of the `created_at` sort. -/
theorem mem_insertByCreatedDesc (x r : ImageRow) (l : List ImageRow) :
    x ∈ insertByCreatedDesc r l ↔ x = r ∨ x ∈ l := by
  induction l with
  | nil => simp [insertByCreatedDesc]
  | cons y ys ih =>
      by_cases h : y.created_at < r.created_at
      · simp [insertByCreatedDesc, h]
      · simp only [insertByCreatedDesc, if_neg h, List.mem_cons, ih]
        tauto

/-- The `ORDER BY created_at DESC` sort keeps exactly the same rows. -/
theorem mem_sortByCreatedDesc (x : ImageRow) (l : List ImageRow) :
    x ∈ sortByCreatedDesc l ↔ x ∈ l := by
  induction l with
  | nil => simp [sortByCreatedDesc]
  | cons y ys ih =>
      simp only [sortByCreatedDesc, List.foldr_cons] at *
      rw [mem_insertByCreatedDesc, ih, List.mem_cons]

/-- `Char.toLower` moves uppercase ASCII by 32 code points. -/
theorem ofNat_shift_ne_dot : ∀ n < 91, 65 ≤ n → Char.ofNat (n + 32) ≠ '.' := by
  decide

/-- `Char.toLower` never produces a slash from a non-slash. -/
theorem ofNat_shift_ne_slash : ∀ n < 91, 65 ≤ n → Char.ofNat (n + 32) ≠ '/' := by
  decide

/-- The code point of a lowered uppercase ASCII letter. -/
theorem ofNat_shift_toNat : ∀ n < 91, 65 ≤ n →
    (Char.ofNat (n + 32)).toNat = n + 32 := by
  decide

/-- Lowercasing fixes exactly the dot. -/
theorem toLower_eq_dot (c : Char) : Char.toLower c = '.' ↔ c = '.' := by
  constructor
  · intro h
    simp only [Char.toLower] at h
    by_cases hn : c.toNat ≥ 65 ∧ c.toNat ≤ 90
    · rw [if_pos hn] at h
      exact absurd h (ofNat_shift_ne_dot c.toNat (by omega) hn.1)
    · rwa [if_neg hn] at h
  · intro h; subst h; decide

/-- Lowercasing fixes exactly the path separator. -/
theorem toLower_eq_slash (c : Char) : Char.toLower c = '/' ↔ c = '/' := by
  constructor
  · intro h
    simp only [Char.toLower] at h
    by_cases hn : c.toNat ≥ 65 ∧ c.toNat ≤ 90
    · rw [if_pos hn] at h
      exact absurd h (ofNat_shift_ne_slash c.toNat (by omega) hn.1)
    · rwa [if_neg hn] at h
  · intro h; subst h; decide

/-- ASCII lowercasing is idempotent. -/
theorem toLower_idem (c : Char) :
    Char.toLower (Char.toLower c) = Char.toLower c := by
  simp only [Char.toLower]
  by_cases hn : c.toNat ≥ 65 ∧ c.toNat ≤ 90
  · rw [if_pos hn]
    have ht := ofNat_shift_toNat c.toNat (by omega) hn.1
    rw [if_neg (by omega)]
  · rw [if_neg hn, if_neg hn]

/-- `strToLower` is idempotent. -/
theorem strToLower_idem (s : String) :
    strToLower (strToLower s) = strToLower s := by
  apply String.ext
  simp only [strToLower, List.map_map]
  exact List.map_congr_left fun c _ => toLower_idem c

/-- The extension scan commutes with lowercasing. -/
theorem extScan_map_toLower (l acc : List Char) :
    extScan (l.map Char.toLower) (acc.map Char.toLower) =
      (extScan l acc).map strToLower := by
  induction l generalizing acc with
  | nil => simp [extScan]
  | cons c rest ih =>
      simp only [List.map_cons, extScan]
      by_cases hs : c = '/'
      · rw [if_pos ((toLower_eq_slash c).mpr hs), if_pos hs]
        rfl
      · rw [if_neg (fun h => hs ((toLower_eq_slash c).mp h)), if_neg hs]
        by_cases hd : c = '.'
        · rw [if_pos ((toLower_eq_dot c).mpr hd), if_pos hd]
          rfl
        · rw [if_neg (fun h => hd ((toLower_eq_dot c).mp h)), if_neg hd]
          exact ih (c :: acc)

/-- `filepath.Ext` commutes with lowercasing the filename. -/
theorem filepathExt_strToLower (s : String) :
    filepathExt (strToLower s) = strToLower (filepathExt s) := by
  unfold filepathExt
  have hdata : (strToLower s).data = s.data.map Char.toLower := rfl
  rw [hdata, ← List.map_reverse]
  have := extScan_map_toLower s.data.reverse []
  simp only [List.map_nil] at this
  rw [this]
  cases extScan s.data.reverse [] with
  | none => rfl
  | some v => rfl

/-- Extension validation is insensitive to the filename's case. -/
theorem isValidImageType_toLower (s : String) :
    isValidImageType (strToLower s) = isValidImageType s := by
  unfold isValidImageType
  rw [filepathExt_strToLower, strToLower_idem]

/-- The loop state `uploadHandler` starts its per-file loop from, and
the final loop state it reaches, on a well-formed request. -/
def uploadFinal (uuids : List String) (now : Nat) (st : ServerState)
    (req : UploadRequest) : LoopState :=
  processFiles req.user_id (pathJoin uploadDir req.user_id) now
    ⟨{ st with dirs := pathJoin uploadDir req.user_id :: st.dirs },
     uuids, [], [],
     [Ev.mkUserDir (pathJoin uploadDir req.user_id)]⟩
    req.files

/-- Reduction of `uploadHandler` on a well-formed request with at
least one file part. -/
theorem uploadHandler_eq (uuids : List String) (now : Nat)
    (st : ServerState) (req : UploadRequest)
    (hp : req.parseOk = true) (hu : req.user_id ≠ "")
    (hf : req.files ≠ []) :
    uploadHandler uuids now st req =
      (if (uploadFinal uuids now st req).images.isEmpty then
        ⟨UpResult.outcome 400
          ⟨false, (uploadFinal uuids now st req).images,
           (uploadFinal uuids now st req).errors⟩,
         (uploadFinal uuids now st req).st,
         (uploadFinal uuids now st req).trace⟩
      else
        ⟨UpResult.outcome 200
          ⟨true, (uploadFinal uuids now st req).images,
           (uploadFinal uuids now st req).errors⟩,
         (uploadFinal uuids now st req).st,
         (uploadFinal uuids now st req).trace⟩) := by
  obtain ⟨po, uid, fls⟩ := req
  simp only at hp hu hf
  subst hp
  simp only [uploadHandler, uploadFinal, Bool.not_true, Bool.false_eq_true,
    if_false]
  rw [if_neg (by simp [hu])]
  rw [if_neg (by simp [List.isEmpty_iff, hf])]

/-! ## Claim theorems -/

/-- C3: the ETag computed for an image identifier is exactly the first
8 bytes of the SHA-256 of the identifier, rendered as a double-quoted
lowercase hex string with 16 hex digits inside the quotes, and the
computation is deterministic; the retrieval handler sets exactly this
ETag on every resolved response. -/
theorem claim_c3_etag_format (id₁ id₂ : String) (h : id₁ = id₂) :
    generateETag id₁ = generateETag id₂ ∧
    (∃ core : String,
      generateETag id₁ = "\"" ++ core ++ "\"" ∧
      core = bytesToHex ((sha256 (utf8Bytes id₁)).take 8) ∧
      core.length = 16 ∧
      ∀ c ∈ core.data, c ∈ hexDigits) ∧
    (∀ (st : ServerState) (userID inm : String) (img : ImageRow)
       (content : Bytes),
       dbLookup st.db id₁ userID = some img →
       fsRead st.fs img.file_path = some content →
       downloadHandler st userID id₁ inm =
           DlResult.notModified img.mime_type img.size_bytes
             (generateETag id₁) ∨
         downloadHandler st userID id₁ inm =
           DlResult.ok img.mime_type img.size_bytes (generateETag id₁)
             content) := by
  subst h
  refine ⟨rfl, ⟨bytesToHex ((sha256 (utf8Bytes id₁)).take 8), rfl, rfl, ?_, ?_⟩, ?_⟩
  · rw [bytesToHex_length, List.length_take, sha256_length]
    rfl
  · intro c hc
    have hc2 : c ∈ ((sha256 (utf8Bytes id₁)).take 8).flatMap byteHex := hc
    rw [List.mem_flatMap] at hc2
    obtain ⟨b, hb, hcb⟩ := hc2
    exact byteHex_mem b
      (sha256_byte_lt (utf8Bytes id₁) b (List.mem_of_mem_take hb)) c hcb
  · intro st userID inm img content hdb hfs
    by_cases hm : inm = generateETag id₁
    · left
      simp [downloadHandler, hdb, hfs, hm]
    · right
      simp [downloadHandler, hdb, hfs, hm]

/-- C3 witness: the theorem instantiated at the identifier "abc". -/
theorem claim_c3_witness :
    generateETag "abc" = generateETag "abc" ∧
    (∃ core : String,
      generateETag "abc" = "\"" ++ core ++ "\"" ∧
      core = bytesToHex ((sha256 (utf8Bytes "abc")).take 8) ∧
      core.length = 16 ∧
      ∀ c ∈ core.data, c ∈ hexDigits) ∧
    (∀ (st : ServerState) (userID inm : String) (img : ImageRow)
       (content : Bytes),
       dbLookup st.db "abc" userID = some img →
       fsRead st.fs img.file_path = some content →
       downloadHandler st userID "abc" inm =
           DlResult.notModified img.mime_type img.size_bytes
             (generateETag "abc") ∨
         downloadHandler st userID "abc" inm =
           DlResult.ok img.mime_type img.size_bytes (generateETag "abc")
             content) :=
  claim_c3_etag_format "abc" "abc" rfl

/-- C4: once a retrieval request resolves (row found, file opened), an
`If-None-Match` header exactly equal to the computed ETag yields 304
with headers and no body, and any other value — including the absent
header, which reads as `""` and never equals an ETag — yields 200 with
the full file body. -/
theorem claim_c4_conditional (st : ServerState)
    (userID imageID inm : String) (img : ImageRow) (content : Bytes)
    (hdb : dbLookup st.db imageID userID = some img)
    (hfs : fsRead st.fs img.file_path = some content) :
    (inm = generateETag imageID →
       downloadHandler st userID imageID inm =
         DlResult.notModified img.mime_type img.size_bytes
           (generateETag imageID)) ∧
    (inm ≠ generateETag imageID →
       downloadHandler st userID imageID inm =
         DlResult.ok img.mime_type img.size_bytes (generateETag imageID)
           content) ∧
    generateETag imageID ≠ "" := by
  refine ⟨?_, ?_, generateETag_ne_empty imageID⟩
  · intro h
    simp [downloadHandler, hdb, hfs, h]
  · intro h
    simp [downloadHandler, hdb, hfs, h]

/-- A one-row database for concrete checks. -/
def c4row : ImageRow :=
  ⟨"img1", "u1", "a.png", "./uploads/u1/img1.png", "image/png", 3, 7,
   none, ""⟩

/-- A server state holding `c4row` and its file. -/
def c4st : ServerState :=
  ⟨[("./uploads/u1/img1.png", [10, 20, 30])], ["./uploads/u1"], [c4row]⟩

/-- C4 witness: the theorem instantiated at a concrete resolved
request with an absent (empty) `If-None-Match` header. -/
theorem claim_c4_witness :
    ("" = generateETag "img1" →
       downloadHandler c4st "u1" "img1" "" =
         DlResult.notModified c4row.mime_type c4row.size_bytes
           (generateETag "img1")) ∧
    ("" ≠ generateETag "img1" →
       downloadHandler c4st "u1" "img1" "" =
         DlResult.ok c4row.mime_type c4row.size_bytes
           (generateETag "img1") [10, 20, 30]) ∧
    generateETag "img1" ≠ "" :=
  claim_c4_conditional c4st "u1" "img1" "" c4row [10, 20, 30]
    (by decide) (by decide)

/-- C2: a row whose deletion timestamp is set is invisible: retrieval
scoped to its user and identifier answers 404 whatever the filesystem
still holds, and no row the listing handler returns has a set deletion
timestamp.  Identifier uniqueness (the table's primary key) is the
`huniq` hypothesis. -/
theorem claim_c2_soft_delete_invisible (st : ServerState) (r : ImageRow)
    (t : Nat) (inm : String)
    (hr : r ∈ st.db) (hdel : r.deleted_at = some t)
    (huniq : ∀ r' ∈ st.db, r'.id = r.id → r' = r) :
    downloadHandler st r.user_id r.id inm = DlResult.notFound ∧
    ∀ userID : String, ∀ img ∈ (listImagesHandler st.db userID).images,
      img.deleted_at = none := by
  constructor
  · have hnone : dbLookup st.db r.id r.user_id = none := by
      rw [dbLookup, List.find?_eq_none]
      intro x hx hmx
      simp only [rowMatches, Bool.and_eq_true, beq_iff_eq] at hmx
      have hxr : x = r := huniq x hx hmx.1.1
      subst hxr
      rw [hdel] at hmx
      simp at hmx
    simp [downloadHandler, hnone]
  · intro userID img himg
    simp only [listImagesHandler, List.mem_map] at himg
    obtain ⟨r₀, hr₀, rfl⟩ := himg
    rw [mem_sortByCreatedDesc, List.mem_filter] at hr₀
    have h2 := hr₀.2
    simp only [Bool.and_eq_true, Option.isNone_iff_eq_none] at h2
    exact h2.2

/-- A soft-deleted row for the concrete C2 check. -/
def c2row : ImageRow :=
  ⟨"img2", "u2", "b.jpg", "./uploads/u2/img2.jpg", "image/jpeg", 5, 3,
   some 9, ""⟩

/-- A state where `c2row` is soft-deleted but its file persists. -/
def c2st : ServerState :=
  ⟨[("./uploads/u2/img2.jpg", [1, 2, 3, 4, 5])], ["./uploads/u2"], [c2row]⟩

/-- C2 witness: the theorem instantiated at the soft-deleted row. -/
theorem claim_c2_witness :
    downloadHandler c2st c2row.user_id c2row.id "" = DlResult.notFound ∧
    ∀ userID : String, ∀ img ∈ (listImagesHandler c2st.db userID).images,
      img.deleted_at = none :=
  claim_c2_soft_delete_invisible c2st c2row 9 "" (by decide) (by decide)
    (by decide)

/-- After the soft-delete update, no row of the user still matches. -/
theorem stamped_no_matches (db : List ImageRow) (userID imageID : String)
    (now : Nat) :
    ∀ r ∈ db.map (fun r =>
        if rowMatches imageID userID r then { r with deleted_at := some now }
        else r),
      rowMatches imageID userID r = false := by
  intro r hr
  rw [List.mem_map] at hr
  obtain ⟨r₀, _, rfl⟩ := hr
  by_cases h : rowMatches imageID userID r₀ = true
  · rw [if_pos h]
    simp [rowMatches]
  · rw [if_neg h]
    exact Bool.not_eq_true _ ▸ h

/-- C7: deletion answers 404 exactly when no non-deleted row matches
the user and identifier (leaving the table unchanged), a successful
deletion returns the confirmation payload carrying the identifier, and
a repeated deletion of the same identifier answers 404. -/
theorem claim_c7_delete_semantics (db : List ImageRow)
    (userID imageID : String) (n₁ n₂ : Nat) :
    ((db.filter (rowMatches imageID userID)).length = 0 →
       deleteImageHandler db userID imageID n₁ = (DelResult.notFound, db)) ∧
    ((db.filter (rowMatches imageID userID)).length ≠ 0 →
       (deleteImageHandler db userID imageID n₁).1 =
         DelResult.deleted imageID) ∧
    (∀ db', deleteImageHandler db userID imageID n₁ =
        (DelResult.deleted imageID, db') →
       deleteImageHandler db' userID imageID n₂ =
         (DelResult.notFound, db')) := by
  refine ⟨?_, ?_, ?_⟩
  · intro h0
    have hnil : db.filter (rowMatches imageID userID) = [] :=
      List.length_eq_zero.mp h0
    have hnomatch : ∀ r ∈ db, rowMatches imageID userID r = false := by
      intro r hr
      by_cases h : rowMatches imageID userID r = true
      · exfalso
        have : r ∈ db.filter (rowMatches imageID userID) :=
          List.mem_filter.mpr ⟨hr, h⟩
        rw [hnil] at this
        exact absurd this (List.not_mem_nil r)
      · exact Bool.not_eq_true _ ▸ h
    have hid : db.map (fun r =>
        if rowMatches imageID userID r then { r with deleted_at := some n₁ }
        else r) = db := by
      have := List.map_congr_left (l := db)
        (f := fun r => if rowMatches imageID userID r then
          { r with deleted_at := some n₁ } else r) (g := id)
        (fun r hr => by simp [hnomatch r hr])
      rw [this, List.map_id]
    simp [deleteImageHandler, h0, hid]
  · intro hne
    simp [deleteImageHandler, hne]
  · intro db' hdel
    unfold deleteImageHandler at hdel
    by_cases h0 : (db.filter (rowMatches imageID userID)).length = 0
    · rw [if_pos (by simpa using h0)] at hdel
      exact absurd (congrArg Prod.fst hdel) (by simp)
    · rw [if_neg (by simpa using h0)] at hdel
      have hdb' : db' = db.map (fun r =>
          if rowMatches imageID userID r then
            { r with deleted_at := some n₁ }
          else r) := (congrArg Prod.snd hdel).symm
      have hnm := stamped_no_matches db userID imageID n₁
      rw [← hdb'] at hnm
      have hfil : db'.filter (rowMatches imageID userID) = [] := by
        rw [List.filter_eq_nil_iff]
        intro r hr
        simp [hnm r hr]
      have hmapid : db'.map (fun r =>
          if rowMatches imageID userID r then
            { r with deleted_at := some n₂ }
          else r) = db' := by
        have := List.map_congr_left (l := db')
          (f := fun r => if rowMatches imageID userID r then
            { r with deleted_at := some n₂ } else r) (g := id)
          (fun r hr => by simp [hnm r hr])
        rw [this, List.map_id]
      simp [deleteImageHandler, hfil, hmapid]

/-- A live row the concrete C7 check deletes twice. -/
def c7row : ImageRow :=
  ⟨"img3", "u3", "c.gif", "./uploads/u3/img3.gif", "image/gif", 2, 4,
   none, ""⟩

/-- C7 witness: deleting `c7row` succeeds with its identifier in the
payload, and the second deletion answers 404. -/
theorem claim_c7_witness :
    (([c7row].filter (rowMatches "img3" "u3")).length = 0 →
       deleteImageHandler [c7row] "u3" "img3" 11 =
         (DelResult.notFound, [c7row])) ∧
    (([c7row].filter (rowMatches "img3" "u3")).length ≠ 0 →
       (deleteImageHandler [c7row] "u3" "img3" 11).1 =
         DelResult.deleted "img3") ∧
    (∀ db', deleteImageHandler [c7row] "u3" "img3" 11 =
        (DelResult.deleted "img3", db') →
       deleteImageHandler db' "u3" "img3" 12 =
         (DelResult.notFound, db')) :=
  claim_c7_delete_semantics [c7row] "u3" "img3" 11 12

/-- C10: a parsed request with a `user_id` but zero file parts is
rejected with the single plain 400 error object — never the aggregate
success/errors outcome — and the user's directory has already been
created before the rejection. -/
theorem claim_c10_no_files (uuids : List String) (now : Nat)
    (st : ServerState) (req : UploadRequest)
    (hp : req.parseOk = true) (hu : req.user_id ≠ "")
    (hf : req.files = []) :
    uploadHandler uuids now st req =
      ⟨UpResult.plainError 400 "No se recibieron imágenes",
       { st with dirs := pathJoin uploadDir req.user_id :: st.dirs },
       [Ev.mkUserDir (pathJoin uploadDir req.user_id)]⟩ ∧
    pathJoin uploadDir req.user_id ∈ (uploadHandler uuids now st req).st.dirs ∧
    ∀ status resp,
      (uploadHandler uuids now st req).res ≠ UpResult.outcome status resp := by
  have hmain : uploadHandler uuids now st req =
      ⟨UpResult.plainError 400 "No se recibieron imágenes",
       { st with dirs := pathJoin uploadDir req.user_id :: st.dirs },
       [Ev.mkUserDir (pathJoin uploadDir req.user_id)]⟩ := by
    obtain ⟨po, uid, fls⟩ := req
    simp only at hp hu hf
    subst hp
    subst hf
    simp only [uploadHandler, Bool.not_true, Bool.false_eq_true, if_false]
    rw [if_neg (by simp [hu])]
    rw [if_pos (by simp)]
  refine ⟨hmain, ?_, ?_⟩
  · rw [hmain]
    simp
  · intro status resp
    rw [hmain]
    simp

/-- C10 witness: the theorem instantiated at a concrete zero-file
request. -/
theorem claim_c10_witness :
    uploadHandler ["id9"] 3 ⟨[], [], []⟩ ⟨true, "u9", []⟩ =
      ⟨UpResult.plainError 400 "No se recibieron imágenes",
       { (⟨[], [], []⟩ : ServerState) with
         dirs := pathJoin uploadDir "u9" :: ([] : List String) },
       [Ev.mkUserDir (pathJoin uploadDir "u9")]⟩ ∧
    pathJoin uploadDir "u9" ∈
      (uploadHandler ["id9"] 3 ⟨[], [], []⟩ ⟨true, "u9", []⟩).st.dirs ∧
    ∀ status resp,
      (uploadHandler ["id9"] 3 ⟨[], [], []⟩ ⟨true, "u9", []⟩).res ≠
        UpResult.outcome status resp :=
  claim_c10_no_files ["id9"] 3 ⟨[], [], []⟩ ⟨true, "u9", []⟩ rfl
    (by decide) rfl

/-- Each file part contributes exactly one success entry or exactly
one error entry. -/
theorem processFile_count (userID userDir : String) (now : Nat)
    (ls : LoopState) (fp : FilePart) :
    (processFile userID userDir now ls fp).images.length +
        (processFile userID userDir now ls fp).errors.length =
      ls.images.length + ls.errors.length + 1 := by
  unfold processFile
  split
  · simp only [List.length_append, List.length_cons, List.length_nil]
    omega
  · split
    · simp only [List.length_append, List.length_cons, List.length_nil]
      omega
    · simp only [List.length_append, List.length_cons, List.length_nil]
      omega

/-- Over the whole loop, success and error entries add up to the
number of file parts. -/
theorem processFiles_count (userID userDir : String) (now : Nat)
    (fps : List FilePart) (ls : LoopState) :
    (processFiles userID userDir now ls fps).images.length +
        (processFiles userID userDir now ls fps).errors.length =
      ls.images.length + ls.errors.length + fps.length := by
  induction fps generalizing ls with
  | nil => simp [processFiles]
  | cons fp rest ih =>
      simp only [processFiles]
      rw [ih]
      have h := processFile_count userID userDir now ls fp
      simp only [List.length_cons]
      omega

/-- The final loop state accounts one entry per file part. -/
theorem uploadFinal_count (uuids : List String) (now : Nat)
    (st : ServerState) (req : UploadRequest) :
    (uploadFinal uuids now st req).images.length +
        (uploadFinal uuids now st req).errors.length =
      req.files.length := by
  unfold uploadFinal
  rw [processFiles_count]
  simp

/-- C5: on a parsed request with a `user_id` and at least one file
part, the aggregate outcome is returned with status 200 and
`success=true` exactly when at least one file part succeeded; when
every part fails the status is 400, the flag is false, the success
list is empty, and — since success and error entries add up to the
number of parts — every failed file has its own error entry. -/
theorem claim_c5_aggregate (uuids : List String) (now : Nat)
    (st : ServerState) (req : UploadRequest)
    (hp : req.parseOk = true) (hu : req.user_id ≠ "")
    (hf : req.files ≠ []) :
    ∃ status resp,
      (uploadHandler uuids now st req).res = UpResult.outcome status resp ∧
      ((status = 200 ∧ resp.success = true) ↔ resp.images ≠ []) ∧
      (resp.images = [] → status = 400 ∧ resp.success = false) ∧
      resp.images.length + resp.errors.length = req.files.length := by
  rw [uploadHandler_eq uuids now st req hp hu hf]
  have hcount := uploadFinal_count uuids now st req
  by_cases hempty : (uploadFinal uuids now st req).images.isEmpty = true
  · rw [if_pos hempty]
    have himg : (uploadFinal uuids now st req).images = [] :=
      List.isEmpty_iff.mp hempty
    refine ⟨400, _, rfl, ?_, ?_, hcount⟩
    · constructor
      · rintro ⟨h400, _⟩
        omega
      · intro hne
        exact absurd himg hne
    · intro _
      exact ⟨rfl, rfl⟩
  · rw [if_neg hempty]
    have himg : (uploadFinal uuids now st req).images ≠ [] := by
      intro h
      exact hempty (List.isEmpty_iff.mpr h)
    refine ⟨200, _, rfl, ?_, ?_, hcount⟩
    · exact ⟨fun _ => himg, fun _ => ⟨rfl, rfl⟩⟩
    · intro h
      exact absurd h himg

/-- An all-invalid batch for the concrete C5 check: one oversized
part and one part with a disallowed extension. -/
def c5req : UploadRequest :=
  ⟨true, "u5", [⟨"big.png", 10485761, [1]⟩, ⟨"doc.txt", 4, [2, 3]⟩]⟩

/-- C5 witness: the theorem instantiated at the all-invalid batch. -/
theorem claim_c5_witness :
    ∃ status resp,
      (uploadHandler ["idA", "idB"] 2 ⟨[], [], []⟩ c5req).res =
        UpResult.outcome status resp ∧
      ((status = 200 ∧ resp.success = true) ↔ resp.images ≠ []) ∧
      (resp.images = [] → status = 400 ∧ resp.success = false) ∧
      resp.images.length + resp.errors.length = c5req.files.length :=
  claim_c5_aggregate ["idA", "idB"] 2 ⟨[], [], []⟩ c5req rfl (by decide)
    (by decide)

/-- C6: a file part whose declared size exceeds the 10 MiB cap leaves
the filesystem, directories and database untouched and adds no success
entry; it appends exactly the error entry naming the file, and the
loop then continues with the remaining parts unchanged. -/
theorem claim_c6_oversize (userID userDir : String) (now : Nat)
    (ls : LoopState) (fp : FilePart) (rest : List FilePart)
    (hsize : fp.size > maxFileSize) :
    (processFile userID userDir now ls fp).st = ls.st ∧
    (processFile userID userDir now ls fp).images = ls.images ∧
    (processFile userID userDir now ls fp).errors =
      ls.errors ++ [fp.filename ++ ": excede tamaño máximo de 10MB"] ∧
    processFiles userID userDir now ls (fp :: rest) =
      processFiles userID userDir now (processFile userID userDir now ls fp)
        rest := by
  refine ⟨?_, ?_, ?_, by simp only [processFiles]⟩ <;>
  · unfold processFile
    rw [if_pos hsize]

/-- An oversized file part (one byte over the cap). -/
def c6part : FilePart := ⟨"huge.png", 10485761, [1, 2]⟩

/-- A loop state holding one stored file and one DB row. -/
def c6ls : LoopState :=
  ⟨⟨[("./uploads/u6/old.png", [7])], ["./uploads/u6"],
    [⟨"old", "u6", "old.png", "./uploads/u6/old.png", "image/png", 1, 0,
      none, ""⟩]⟩,
   ["idC"], [], [], []⟩

/-- C6 witness: the theorem instantiated at the oversized part. -/
theorem claim_c6_witness :
    (processFile "u6" "./uploads/u6" 5 c6ls c6part).st = c6ls.st ∧
    (processFile "u6" "./uploads/u6" 5 c6ls c6part).images = c6ls.images ∧
    (processFile "u6" "./uploads/u6" 5 c6ls c6part).errors =
      c6ls.errors ++ [c6part.filename ++ ": excede tamaño máximo de 10MB"] ∧
    processFiles "u6" "./uploads/u6" 5 c6ls (c6part :: [⟨"n.png", 1, [3]⟩]) =
      processFiles "u6" "./uploads/u6" 5
        (processFile "u6" "./uploads/u6" 5 c6ls c6part) [⟨"n.png", 1, [3]⟩] :=
  claim_c6_oversize "u6" "./uploads/u6" 5 c6ls c6part [⟨"n.png", 1, [3]⟩]
    (by decide)

/-! ## Branch equations of the per-file loop -/

/-- The oversized branch of `processFile`. -/
theorem processFile_sizeFail (userID userDir : String) (now : Nat)
    (ls : LoopState) (fp : FilePart) (h : fp.size > maxFileSize) :
    processFile userID userDir now ls fp =
      { ls with
        errors := ls.errors ++
          [fp.filename ++ ": excede tamaño máximo de 10MB"],
        trace := ls.trace ++ [Ev.sizeCheck fp.filename false] } := by
  unfold processFile
  rw [if_pos h]

/-- The invalid-extension branch of `processFile`. -/
theorem processFile_extFail (userID userDir : String) (now : Nat)
    (ls : LoopState) (fp : FilePart) (h1 : ¬fp.size > maxFileSize)
    (h2 : isValidImageType fp.filename = false) :
    processFile userID userDir now ls fp =
      { ls with
        errors := ls.errors ++ [fp.filename ++ ": formato no válido"],
        trace := ls.trace ++ [Ev.sizeCheck fp.filename true,
                              Ev.extCheck fp.filename false] } := by
  unfold processFile
  rw [if_neg h1, h2]
  rfl

/-- The accepted branch of `processFile`: the file is written, the row
inserted and the success entry appended. -/
theorem processFile_accepted (userID userDir : String) (now : Nat)
    (ls : LoopState) (fp : FilePart) (h1 : ¬fp.size > maxFileSize)
    (h2 : isValidImageType fp.filename = true) :
    processFile userID userDir now ls fp =
      { st := { fs := (pathJoin userDir
                  (ls.uuids.headD "" ++ filepathExt fp.filename),
                  fp.content) :: ls.st.fs,
                dirs := ls.st.dirs,
                db := ls.st.db ++
                  [⟨ls.uuids.headD "", userID, fp.filename,
                    pathJoin userDir
                      (ls.uuids.headD "" ++ filepathExt fp.filename),
                    getContentType (filepathExt fp.filename),
                    fp.content.length, now, none, ""⟩] },
        uuids := ls.uuids.tail,
        images := ls.images ++
          [⟨ls.uuids.headD "", userID, fp.filename, fp.content.length,
            "/image/" ++ userID ++ "/" ++ ls.uuids.headD ""⟩],
        errors := ls.errors,
        trace := ls.trace ++
          [Ev.sizeCheck fp.filename true, Ev.extCheck fp.filename true,
           Ev.openFile fp.filename, Ev.genId (ls.uuids.headD ""),
           Ev.createDest (pathJoin userDir
             (ls.uuids.headD "" ++ filepathExt fp.filename)),
           Ev.copyBytes (pathJoin userDir
             (ls.uuids.headD "" ++ filepathExt fp.filename)),
           Ev.insertRow (ls.uuids.headD "")] } := by
  unfold processFile
  rw [if_neg h1, h2]
  rfl

/-! ## C8: ordering of upload side effects -/

/-- Each `processFile` call appends one of three event blocks, whose
internal order is size check, extension check, open, identifier
generation, destination creation, copy, insert. -/
theorem processFile_trace (userID userDir : String) (now : Nat)
    (ls : LoopState) (fp : FilePart) :
    ∃ block,
      (processFile userID userDir now ls fp).trace = ls.trace ++ block ∧
      (block = [Ev.sizeCheck fp.filename false] ∨
       block = [Ev.sizeCheck fp.filename true,
                Ev.extCheck fp.filename false] ∨
       ∃ id p,
         block = [Ev.sizeCheck fp.filename true,
                  Ev.extCheck fp.filename true, Ev.openFile fp.filename,
                  Ev.genId id, Ev.createDest p, Ev.copyBytes p,
                  Ev.insertRow id]) := by
  by_cases hs : fp.size > maxFileSize
  · rw [processFile_sizeFail userID userDir now ls fp hs]
    exact ⟨_, rfl, Or.inl rfl⟩
  · by_cases hv : isValidImageType fp.filename = true
    · rw [processFile_accepted userID userDir now ls fp hs hv]
      exact ⟨_, rfl, Or.inr (Or.inr ⟨_, _, rfl⟩)⟩
    · rw [processFile_extFail userID userDir now ls fp hs
        (Bool.not_eq_true _ ▸ hv)]
      exact ⟨_, rfl, Or.inr (Or.inl rfl)⟩

/-- The per-file loop only appends to the trace. -/
theorem processFiles_trace_mono (userID userDir : String) (now : Nat)
    (fps : List FilePart) (ls : LoopState) :
    ∃ evs,
      (processFiles userID userDir now ls fps).trace = ls.trace ++ evs := by
  induction fps generalizing ls with
  | nil => exact ⟨[], by simp [processFiles]⟩
  | cons fp rest ih =>
      obtain ⟨bl, hbl, _⟩ := processFile_trace userID userDir now ls fp
      obtain ⟨evs, hevs⟩ := ih (processFile userID userDir now ls fp)
      refine ⟨bl ++ evs, ?_⟩
      simp only [processFiles]
      rw [hevs, hbl, List.append_assoc]

/-- The trace `uploadHandler` reports is the final loop trace. -/
theorem uploadHandler_trace (uuids : List String) (now : Nat)
    (st : ServerState) (req : UploadRequest)
    (hp : req.parseOk = true) (hu : req.user_id ≠ "")
    (hf : req.files ≠ []) :
    (uploadHandler uuids now st req).trace =
      (uploadFinal uuids now st req).trace := by
  rw [uploadHandler_eq uuids now st req hp hu hf]
  by_cases h : (uploadFinal uuids now st req).images.isEmpty = true
  · rw [if_pos h]
  · rw [if_neg h]

/-- The concrete one-valid-file request for the C8 counterexample. -/
def c8req : UploadRequest := ⟨true, "u8", [⟨"a.png", 3, [1, 2, 3]⟩]⟩

/-- The event trace of the concrete C8 upload. -/
def c8trace : List Ev := (uploadHandler ["id8"] 0 ⟨[], [], []⟩ c8req).trace

/-- Whether an event is the user-directory creation. -/
def Ev.isMkUserDir : Ev → Bool
  | Ev.mkUserDir _ => true
  | _ => false

/-- Whether an event is a size check. -/
def Ev.isSizeCheck : Ev → Bool
  | Ev.sizeCheck _ _ => true
  | _ => false

/-- C8 counterexample: it is NOT the case that the user-directory
creation happens only after the file part's size check — on a
one-file upload the `MkdirAll` event precedes the size-check event in
the handler's trace. -/
theorem claim_c8_counterexample :
    ¬ (∀ i < c8trace.length, ∀ j < c8trace.length,
        (c8trace.getD i (Ev.genId "")).isMkUserDir = true →
        (c8trace.getD j (Ev.genId "")).isSizeCheck = true → j < i) := by
  decide

/-- C8 (amended): per file part the steps do occur in the stated
order — size check, extension check, open, identifier generation,
destination path, copy, insert — but the user's directory is created
once per request, before any file part is processed (not after the
per-file checks pass). -/
theorem claim_c8_order_amended (uuids : List String) (now : Nat)
    (st : ServerState) (req : UploadRequest)
    (hp : req.parseOk = true) (hu : req.user_id ≠ "")
    (hf : req.files ≠ []) :
    (∃ evs, (uploadHandler uuids now st req).trace =
       Ev.mkUserDir (pathJoin uploadDir req.user_id) :: evs) ∧
    (∀ (userID userDir : String) (n : Nat) (ls : LoopState)
       (fp : FilePart),
       ∃ block,
         (processFile userID userDir n ls fp).trace = ls.trace ++ block ∧
         (block = [Ev.sizeCheck fp.filename false] ∨
          block = [Ev.sizeCheck fp.filename true,
                   Ev.extCheck fp.filename false] ∨
          ∃ id p,
            block = [Ev.sizeCheck fp.filename true,
                     Ev.extCheck fp.filename true, Ev.openFile fp.filename,
                     Ev.genId id, Ev.createDest p, Ev.copyBytes p,
                     Ev.insertRow id])) := by
  constructor
  · rw [uploadHandler_trace uuids now st req hp hu hf]
    obtain ⟨evs, hevs⟩ := processFiles_trace_mono req.user_id
      (pathJoin uploadDir req.user_id) now req.files
      ⟨{ st with dirs := pathJoin uploadDir req.user_id :: st.dirs },
       uuids, [], [], [Ev.mkUserDir (pathJoin uploadDir req.user_id)]⟩
    exact ⟨evs, hevs⟩
  · intro userID userDir n ls fp
    exact processFile_trace userID userDir n ls fp

/-- C8 witness: the amended theorem instantiated at the concrete
one-file request. -/
theorem claim_c8_witness :
    (∃ evs, (uploadHandler ["id8"] 0 ⟨[], [], []⟩ c8req).trace =
       Ev.mkUserDir (pathJoin uploadDir c8req.user_id) :: evs) ∧
    (∀ (userID userDir : String) (n : Nat) (ls : LoopState)
       (fp : FilePart),
       ∃ block,
         (processFile userID userDir n ls fp).trace = ls.trace ++ block ∧
         (block = [Ev.sizeCheck fp.filename false] ∨
          block = [Ev.sizeCheck fp.filename true,
                   Ev.extCheck fp.filename false] ∨
          ∃ id p,
            block = [Ev.sizeCheck fp.filename true,
                     Ev.extCheck fp.filename true, Ev.openFile fp.filename,
                     Ev.genId id, Ev.createDest p, Ev.copyBytes p,
                     Ev.insertRow id])) :=
  claim_c8_order_amended ["id8"] 0 ⟨[], [], []⟩ c8req rfl (by decide)
    (by decide)

/-! ## C9: extension validation and MIME types -/

/-- The loop state for the C9 counterexample. -/
def c9ls : LoopState := ⟨⟨[], [], []⟩, ["id9"], [], [], []⟩

/-- C9 counterexample: the filename `a.PNG` passes the
case-insensitive extension validation, yet the MIME type the upload
stores for it (and the retrieval handler would later serve) is
`application/octet-stream`, not the image media type `image/png` —
because `getContentType` receives the extension without lowercasing. -/
theorem claim_c9_counterexample :
    isValidImageType "a.PNG" = true ∧
    (processFile "u9" "./uploads/u9" 0 c9ls ⟨"a.PNG", 3, [1, 2, 3]⟩).st.db =
      [⟨"id9", "u9", "a.PNG", "./uploads/u9/id9.PNG",
        "application/octet-stream", 3, 0, none, ""⟩] ∧
    "application/octet-stream" ≠ "image/png" := by
  decide

/-- C9 (amended): validation accepts exactly the whitelisted
extensions case-insensitively, and the stored (and later served) MIME
type is `getContentType` of the raw extension: the image media type
for the lowercase spellings, but `application/octet-stream` for any
extension outside the literal whitelist — including upper- or
mixed-case spellings of allowed extensions. -/
theorem claim_c9_mime_amended :
    (∀ name : String,
       isValidImageType (strToLower name) = isValidImageType name) ∧
    (getContentType ".jpg" = "image/jpeg" ∧
     getContentType ".jpeg" = "image/jpeg" ∧
     getContentType ".png" = "image/png" ∧
     getContentType ".gif" = "image/gif" ∧
     getContentType ".webp" = "image/webp") ∧
    (∀ ext : String, ext ∉ validExts →
       getContentType ext = "application/octet-stream") ∧
    (∀ (userID userDir : String) (now : Nat) (ls : LoopState)
       (fp : FilePart),
       ¬fp.size > maxFileSize → isValidImageType fp.filename = true →
       ∃ row : ImageRow,
         (processFile userID userDir now ls fp).st.db = ls.st.db ++ [row] ∧
         row.mime_type = getContentType (filepathExt fp.filename)) ∧
    (∀ (st : ServerState) (userID imageID inm : String) (img : ImageRow)
       (content : Bytes),
       dbLookup st.db imageID userID = some img →
       fsRead st.fs img.file_path = some content →
       inm ≠ generateETag imageID →
       downloadHandler st userID imageID inm =
         DlResult.ok img.mime_type img.size_bytes (generateETag imageID)
           content) := by
  refine ⟨isValidImageType_toLower, by decide, ?_, ?_, ?_⟩
  · intro ext hext
    simp only [validExts, List.mem_cons, List.not_mem_nil, or_false,
      not_or] at hext
    obtain ⟨h1, h2, h3, h4, h5⟩ := hext
    simp [getContentType, h1, h2, h3, h4, h5]
  · intro userID userDir now ls fp hsize hvalid
    rw [processFile_accepted userID userDir now ls fp hsize hvalid]
    exact ⟨_, rfl, rfl⟩
  · intro st userID imageID inm img content hdb hfs hne
    simp [downloadHandler, hdb, hfs, hne]

/-- C9 witness: the amended theorem's upload clause instantiated at a
lowercase `.png` part, whose stored MIME type is `image/png`. -/
theorem claim_c9_witness :
    ∃ row : ImageRow,
      (processFile "u9" "./uploads/u9" 1 c9ls ⟨"b.png", 2, [5, 6]⟩).st.db =
        c9ls.st.db ++ [row] ∧
      row.mime_type = getContentType (filepathExt "b.png") :=
  claim_c9_mime_amended.2.2.2.1 "u9" "./uploads/u9" 1 c9ls
    ⟨"b.png", 2, [5, 6]⟩ (by decide) (by decide)

/-! ## C1: upload/download round trip -/

/-- Two appends with a common prefix and equal-length distinct middles
differ. -/
theorem append_ne_of_ne (p a b x y : String)
    (hlen : a.length = b.length) (hne : a ≠ b) :
    p ++ (a ++ x) ≠ p ++ (b ++ y) := by
  intro h
  apply hne
  have hd := congrArg String.data h
  simp only [String.data_append] at hd
  have h2 := List.append_cancel_left hd
  have h3 := (List.append_inj h2 hlen).1
  exact String.ext h3

/-- Destination paths with distinct equal-length identifiers differ,
whatever the extensions. -/
theorem destPath_ne (userDir a b x y : String)
    (hlen : a.length = b.length) (hne : a ≠ b) :
    pathJoin userDir (a ++ x) ≠ pathJoin userDir (b ++ y) := by
  unfold pathJoin
  exact append_ne_of_ne (userDir ++ "/") a b x y hlen hne

/-- A freshly inserted row is the one the download query finds. -/
theorem dbLookup_append_fresh (db : List ImageRow) (row : ImageRow)
    (userID : String)
    (hfresh : ∀ r' ∈ db, r'.id ≠ row.id)
    (hrow : rowMatches row.id userID row = true) :
    dbLookup (db ++ [row]) row.id userID = some row := by
  unfold dbLookup
  rw [find?_append_none _ db [row] ?_]
  · simp [List.find?, hrow]
  · intro x hx
    have hne := hfresh x hx
    have hbeq : (x.id == row.id) = false := beq_eq_false_iff_ne.mpr hne
    simp [rowMatches, hbeq]

/-- The per-file loop splits over list append. -/
theorem processFiles_append (userID userDir : String) (now : Nat)
    (l1 l2 : List FilePart) (ls : LoopState) :
    processFiles userID userDir now ls (l1 ++ l2) =
      processFiles userID userDir now
        (processFiles userID userDir now ls l1) l2 := by
  induction l1 generalizing ls with
  | nil => simp [processFiles]
  | cons fp rest ih =>
      simp only [List.cons_append, processFiles]
      exact ih (processFile userID userDir now ls fp)

/-- Once a row and its file are stored, the rest of the loop preserves
them: later inserts land behind the row in the table, and later writes
go to paths carrying distinct equal-length identifiers. -/
theorem processFiles_preserve (userID userDir u : String) (now : Nat)
    (row : ImageRow) (content : Bytes) (e : ImageResponse) :
    ∀ (fps : List FilePart) (ls : LoopState),
    fps.length ≤ ls.uuids.length →
    dbLookup ls.st.db u userID = some row →
    fsRead ls.st.fs row.file_path = some content →
    e ∈ ls.images →
    (∀ v ∈ ls.uuids, v ≠ u ∧ v.length = u.length) →
    (∃ x, row.file_path = pathJoin userDir (u ++ x)) →
    dbLookup (processFiles userID userDir now ls fps).st.db u userID =
        some row ∧
      fsRead (processFiles userID userDir now ls fps).st.fs
          row.file_path = some content ∧
      e ∈ (processFiles userID userDir now ls fps).images := by
  intro fps
  induction fps with
  | nil =>
      intro ls _ h1 h2 h3 _ _
      exact ⟨h1, h2, h3⟩
  | cons fp rest ih =>
      intro ls hbud h1 h2 h3 h4 h5
      simp only [processFiles]
      by_cases hs : fp.size > maxFileSize
      · rw [processFile_sizeFail userID userDir now ls fp hs]
        exact ih _ (by simpa using Nat.le_of_succ_le hbud) h1 h2 h3 h4 h5
      · by_cases hv : isValidImageType fp.filename = true
        · rw [processFile_accepted userID userDir now ls fp hs hv]
          have hlen1 : 1 ≤ ls.uuids.length := by
            simp only [List.length_cons] at hbud
            omega
          obtain ⟨v, tl, hvt⟩ : ∃ v tl, ls.uuids = v :: tl := by
            cases hlsu : ls.uuids with
            | nil => rw [hlsu] at hlen1; simp at hlen1
            | cons v tl => exact ⟨v, tl, rfl⟩
          have hv_mem : v ∈ ls.uuids := by rw [hvt]; exact List.mem_cons_self v tl
          have hvu := h4 v hv_mem
          apply ih
          · simp only [List.length_cons] at hbud
            rw [hvt]
            simp only [List.tail_cons]
            rw [hvt] at hbud
            simp only [List.length_cons] at hbud
            omega
          · show dbLookup (ls.st.db ++ [_]) u userID = some row
            unfold dbLookup at h1 ⊢
            rw [List.find?_append, h1]
            rfl
          · show fsRead ((pathJoin userDir
                (ls.uuids.headD "" ++ filepathExt fp.filename),
                fp.content) :: ls.st.fs) row.file_path = some content
            obtain ⟨x, hx⟩ := h5
            have hpne : pathJoin userDir
                (ls.uuids.headD "" ++ filepathExt fp.filename) ≠
                row.file_path := by
              rw [hx, hvt]
              simp only [List.headD_cons]
              exact destPath_ne userDir v u (filepathExt fp.filename) x
                hvu.2 hvu.1
            unfold fsRead at h2 ⊢
            rw [List.find?_cons]
            have hbeq : ((pathJoin userDir
                (ls.uuids.headD "" ++ filepathExt fp.filename),
                fp.content).1 == row.file_path) = false :=
              beq_eq_false_iff_ne.mpr hpne
            rw [hbeq]
            exact h2
          · exact List.mem_append_left _ h3
          · intro w hw
            apply h4
            exact List.mem_of_mem_tail hw
          · exact h5
        · rw [processFile_extFail userID userDir now ls fp hs
            (Bool.not_eq_true _ ▸ hv)]
          exact ih _ (by simpa using Nat.le_of_succ_le hbud) h1 h2 h3 h4 h5

/-- Case summary of one `processFile` step: either the part is
rejected, leaving the server state and identifier stream unchanged, or
it is accepted, consuming the head identifier and appending its row. -/
theorem processFile_step (userID userDir : String) (now : Nat)
    (ls : LoopState) (fp : FilePart) :
    ((processFile userID userDir now ls fp).uuids = ls.uuids ∧
     (processFile userID userDir now ls fp).st = ls.st) ∨
    ((processFile userID userDir now ls fp).uuids = ls.uuids.tail ∧
     (processFile userID userDir now ls fp).st.db = ls.st.db ++
       [⟨ls.uuids.headD "", userID, fp.filename,
         pathJoin userDir (ls.uuids.headD "" ++ filepathExt fp.filename),
         getContentType (filepathExt fp.filename), fp.content.length,
         now, none, ""⟩]) := by
  by_cases hs : fp.size > maxFileSize
  · rw [processFile_sizeFail userID userDir now ls fp hs]
    exact Or.inl ⟨rfl, rfl⟩
  · by_cases hv : isValidImageType fp.filename = true
    · rw [processFile_accepted userID userDir now ls fp hs hv]
      exact Or.inr ⟨rfl, rfl⟩
    · rw [processFile_extFail userID userDir now ls fp hs
        (Bool.not_eq_true _ ▸ hv)]
      exact Or.inl ⟨rfl, rfl⟩

/-- Invariant of the loop over the request prefix: the identifiers the
loop has consumed form a prefix of the stream, the table grows only by
rows carrying consumed identifiers, and the stream shrinks by at most
one identifier per file. -/
theorem processFiles_prefix_inv (userID userDir : String) (now : Nat)
    (uuids0 : List String) (db0 : List ImageRow) :
    ∀ (fps : List FilePart) (ls : LoopState) (used : List String),
    uuids0 = used ++ ls.uuids →
    fps.length ≤ ls.uuids.length →
    (∃ rows, ls.st.db = db0 ++ rows ∧ ∀ r ∈ rows, r.id ∈ used) →
    ∃ used2,
      uuids0 = used2 ++ (processFiles userID userDir now ls fps).uuids ∧
      ls.uuids.length ≤
        fps.length + (processFiles userID userDir now ls fps).uuids.length ∧
      (∃ rows2,
        (processFiles userID userDir now ls fps).st.db = db0 ++ rows2 ∧
        ∀ r ∈ rows2, r.id ∈ used2) := by
  intro fps
  induction fps with
  | nil =>
      intro ls used hsplit _ hrows
      exact ⟨used, by simpa [processFiles] using hsplit,
        by simp [processFiles], by simpa [processFiles] using hrows⟩
  | cons fp rest ih =>
      intro ls used hsplit hbud hrows
      simp only [processFiles]
      have hbud1 : rest.length ≤ ls.uuids.length := by
        simp only [List.length_cons] at hbud
        omega
      rcases processFile_step userID userDir now ls fp with
        ⟨huu, hst⟩ | ⟨huu, hdb2⟩
      · obtain ⟨used2, ha, hb, hc⟩ := ih (processFile userID userDir now ls fp)
          used (by rw [huu]; exact hsplit) (by rw [huu]; exact hbud1)
          (by rw [hst]; exact hrows)
        refine ⟨used2, ha, ?_, hc⟩
        rw [huu] at hb
        simp only [List.length_cons]
        omega
      · obtain ⟨v, tl, hvt⟩ : ∃ v tl, ls.uuids = v :: tl := by
          cases hlsu : ls.uuids with
          | nil =>
              rw [hlsu] at hbud
              simp at hbud
          | cons v tl => exact ⟨v, tl, rfl⟩
        obtain ⟨rows, hdbe, hids⟩ := hrows
        have h1 : uuids0 =
            (used ++ [v]) ++ (processFile userID userDir now ls fp).uuids := by
          rw [huu, hvt, List.tail_cons, List.append_assoc,
            List.singleton_append, ← hvt, ← hsplit]
        have h2 : rest.length ≤
            (processFile userID userDir now ls fp).uuids.length := by
          rw [huu, hvt, List.tail_cons]
          have hb2 := hbud
          rw [hvt] at hb2
          simp only [List.length_cons] at hb2
          omega
        have h3 : ∃ rows2,
            (processFile userID userDir now ls fp).st.db = db0 ++ rows2 ∧
            ∀ r ∈ rows2, r.id ∈ used ++ [v] := by
          refine ⟨rows ++
            [⟨ls.uuids.headD "", userID, fp.filename,
              pathJoin userDir (ls.uuids.headD "" ++ filepathExt fp.filename),
              getContentType (filepathExt fp.filename), fp.content.length,
              now, none, ""⟩], ?_, ?_⟩
          · rw [hdb2, hdbe, List.append_assoc]
          · intro r hr
            rw [List.mem_append] at hr
            rcases hr with hr | hr
            · exact List.mem_append_left _ (hids r hr)
            · rw [List.mem_singleton] at hr
              subst hr
              rw [hvt]
              simp
        obtain ⟨used2, ha, hb, hc⟩ :=
          ih (processFile userID userDir now ls fp) (used ++ [v]) h1 h2 h3
        refine ⟨used2, ha, ?_, hc⟩
        rw [huu, hvt, List.tail_cons] at hb
        rw [hvt]
        simp only [List.length_cons]
        omega

/-- Core of the round trip: running the loop over a batch containing
an accepted part leaves, in the final state, a success entry, the
matching table row, and the file content, retrievable by the consumed
identifier. -/
theorem roundtrip_loop (userID userDir : String) (now : Nat)
    (uuids : List String) (db0 : List ImageRow) (ls0 : LoopState)
    (pre post : List FilePart) (fp : FilePart)
    (hls_uuids : ls0.uuids = uuids)
    (hls_db : ls0.st.db = db0)
    (hsize : ¬fp.size > maxFileSize)
    (hext : isValidImageType fp.filename = true)
    (henough : (pre ++ fp :: post).length ≤ uuids.length)
    (hnodup : uuids.Nodup)
    (hlens : ∀ a ∈ uuids, ∀ b ∈ uuids, a.length = b.length)
    (hfresh : ∀ a ∈ uuids, ∀ r ∈ db0, r.id ≠ a) :
    ∃ e ∈ (processFiles userID userDir now ls0 (pre ++ fp :: post)).images,
      e.user_id = userID ∧ e.filename = fp.filename ∧
      e.url = "/image/" ++ userID ++ "/" ++ e.id ∧
      dbLookup (processFiles userID userDir now ls0
          (pre ++ fp :: post)).st.db e.id userID =
        some ⟨e.id, userID, fp.filename,
          pathJoin userDir (e.id ++ filepathExt fp.filename),
          getContentType (filepathExt fp.filename), fp.content.length,
          now, none, ""⟩ ∧
      fsRead (processFiles userID userDir now ls0
          (pre ++ fp :: post)).st.fs
          (pathJoin userDir (e.id ++ filepathExt fp.filename)) =
        some fp.content := by
  have hlenpre : pre.length ≤ ls0.uuids.length := by
    rw [hls_uuids]
    rw [List.length_append, List.length_cons] at henough
    omega
  obtain ⟨used2, hsp2, hbud2, rows2, hdb2, hids2⟩ :=
    processFiles_prefix_inv userID userDir now uuids db0 pre ls0 []
      (by rw [hls_uuids, List.nil_append]) hlenpre
      ⟨[], by rw [hls_db, List.append_nil], by simp⟩
  rw [processFiles_append]
  set l1 := processFiles userID userDir now ls0 pre with hl1
  have hlen1 : post.length + 1 ≤ l1.uuids.length := by
    rw [hls_uuids] at hbud2
    rw [List.length_append, List.length_cons] at henough
    omega
  obtain ⟨u, tl, hut⟩ : ∃ u tl, l1.uuids = u :: tl := by
    cases hc : l1.uuids with
    | nil => rw [hc] at hlen1; simp at hlen1
    | cons u tl => exact ⟨u, tl, rfl⟩
  have hu_mem : u ∈ uuids := by
    rw [hsp2, hut]
    exact List.mem_append_right _ (List.mem_cons_self u tl)
  have hnd2 : (used2 ++ u :: tl).Nodup := by
    rw [← hut, ← hsp2]
    exact hnodup
  have hdisj := (List.nodup_append.mp hnd2).2.2
  have hu_not_used : u ∉ used2 := fun hmemu =>
    hdisj hmemu (List.mem_cons_self u tl)
  have hnd_cons : (u :: tl).Nodup := (List.nodup_append.mp hnd2).2.1
  have hu_not_tl : u ∉ tl := (List.nodup_cons.mp hnd_cons).1
  have hhead : l1.uuids.headD "" = u := by rw [hut]; rfl
  simp only [processFiles]
  have hdb_ls2 : (processFile userID userDir now l1 fp).st.db =
      l1.st.db ++ [⟨u, userID, fp.filename,
        pathJoin userDir (u ++ filepathExt fp.filename),
        getContentType (filepathExt fp.filename), fp.content.length,
        now, none, ""⟩] := by
    rw [processFile_accepted userID userDir now l1 fp hsize hext, hhead]
  have hfs_ls2 : (processFile userID userDir now l1 fp).st.fs =
      (pathJoin userDir (u ++ filepathExt fp.filename), fp.content) ::
        l1.st.fs := by
    rw [processFile_accepted userID userDir now l1 fp hsize hext, hhead]
  have himg_ls2 : (processFile userID userDir now l1 fp).images =
      l1.images ++ [⟨u, userID, fp.filename, fp.content.length,
        "/image/" ++ userID ++ "/" ++ u⟩] := by
    rw [processFile_accepted userID userDir now l1 fp hsize hext, hhead]
  have huu_ls2 : (processFile userID userDir now l1 fp).uuids = tl := by
    rw [processFile_accepted userID userDir now l1 fp hsize hext, hut,
      List.tail_cons]
  have hfresh1 : ∀ r' ∈ l1.st.db, r'.id ≠ u := by
    intro r' hr'
    rw [hdb2, List.mem_append] at hr'
    rcases hr' with hr' | hr'
    · exact hfresh u hu_mem r' hr'
    · intro hid
      apply hu_not_used
      rw [← hid]
      exact hids2 r' hr'
  have H1 : dbLookup ((processFile userID userDir now l1 fp).st.db) u
      userID = some ⟨u, userID, fp.filename,
        pathJoin userDir (u ++ filepathExt fp.filename),
        getContentType (filepathExt fp.filename), fp.content.length,
        now, none, ""⟩ := by
    rw [hdb_ls2]
    exact dbLookup_append_fresh l1.st.db _ userID hfresh1
      (by simp [rowMatches])
  have H2 : fsRead ((processFile userID userDir now l1 fp).st.fs)
      (pathJoin userDir (u ++ filepathExt fp.filename)) =
      some fp.content := by
    rw [hfs_ls2]
    unfold fsRead
    rw [List.find?_cons]
    simp
  have H3 : (⟨u, userID, fp.filename, fp.content.length,
      "/image/" ++ userID ++ "/" ++ u⟩ : ImageResponse) ∈
      (processFile userID userDir now l1 fp).images := by
    rw [himg_ls2]
    exact List.mem_append_right _ (List.mem_singleton_self _)
  have H4 : ∀ v ∈ (processFile userID userDir now l1 fp).uuids,
      v ≠ u ∧ v.length = u.length := by
    intro v hv
    rw [huu_ls2] at hv
    have hv_mem : v ∈ uuids := by
      rw [hsp2, hut]
      exact List.mem_append_right _ (List.mem_cons_of_mem u hv)
    exact ⟨fun hvu => hu_not_tl (hvu ▸ hv), hlens v hv_mem u hu_mem⟩
  have hbudpost : post.length ≤
      (processFile userID userDir now l1 fp).uuids.length := by
    rw [huu_ls2]
    rw [hut] at hlen1
    simp only [List.length_cons] at hlen1
    omega
  obtain ⟨hdbF, hfsF, himgF⟩ := processFiles_preserve userID userDir u now
    ⟨u, userID, fp.filename,
     pathJoin userDir (u ++ filepathExt fp.filename),
     getContentType (filepathExt fp.filename), fp.content.length,
     now, none, ""⟩
    fp.content
    ⟨u, userID, fp.filename, fp.content.length,
     "/image/" ++ userID ++ "/" ++ u⟩
    post (processFile userID userDir now l1 fp) hbudpost H1 H2 H3 H4
    ⟨filepathExt fp.filename, rfl⟩
  exact ⟨⟨u, userID, fp.filename, fp.content.length,
     "/image/" ++ userID ++ "/" ++ u⟩, himgF, rfl, rfl, rfl, hdbF, hfsF⟩

/-- C1: for every file part an upload accepts (size and extension
valid; the copy and insert of the pure model succeed), the upload
response carries a success entry with URL `/image/<user_id>/<id>`, and
a GET through the retrieval handler for that user and identifier
returns 200 with exactly the uploaded byte sequence.  The `uuid`
collaborator is modelled by the stream of generated identifiers, with
its guarantees as hypotheses: enough pairwise-distinct identifiers of
one fixed length (real UUID strings are 36 characters), none already
present in the table. -/
theorem claim_c1_roundtrip (uuids : List String) (now : Nat)
    (st : ServerState) (req : UploadRequest)
    (pre post : List FilePart) (fp : FilePart)
    (hp : req.parseOk = true) (hu : req.user_id ≠ "")
    (hsplit : req.files = pre ++ fp :: post)
    (hsize : ¬fp.size > maxFileSize)
    (hext : isValidImageType fp.filename = true)
    (henough : req.files.length ≤ uuids.length)
    (hnodup : uuids.Nodup)
    (hlens : ∀ a ∈ uuids, ∀ b ∈ uuids, a.length = b.length)
    (hfresh : ∀ a ∈ uuids, ∀ r ∈ st.db, r.id ≠ a) :
    ∃ resp,
      (uploadHandler uuids now st req).res = UpResult.outcome 200 resp ∧
      resp.success = true ∧
      ∃ e ∈ resp.images,
        e.user_id = req.user_id ∧ e.filename = fp.filename ∧
        e.url = "/image/" ++ req.user_id ++ "/" ++ e.id ∧
        downloadHandler (uploadHandler uuids now st req).st req.user_id
            e.id "" =
          DlResult.ok (getContentType (filepathExt fp.filename))
            fp.content.length (generateETag e.id) fp.content := by
  have hf : req.files ≠ [] := by simp [hsplit]
  obtain ⟨e, hmem, heu, hef, heurl, hdbF, hfsF⟩ :=
    roundtrip_loop req.user_id (pathJoin uploadDir req.user_id) now uuids
      st.db
      ⟨{ st with dirs := pathJoin uploadDir req.user_id :: st.dirs },
       uuids, [], [], [Ev.mkUserDir (pathJoin uploadDir req.user_id)]⟩
      pre post fp rfl rfl hsize hext (hsplit ▸ henough) hnodup hlens hfresh
  have hFeq : uploadFinal uuids now st req =
      processFiles req.user_id (pathJoin uploadDir req.user_id) now
        ⟨{ st with dirs := pathJoin uploadDir req.user_id :: st.dirs },
         uuids, [], [], [Ev.mkUserDir (pathJoin uploadDir req.user_id)]⟩
        (pre ++ fp :: post) := by
    unfold uploadFinal
    rw [hsplit]
  rw [← hFeq] at hmem hdbF hfsF
  have hne : (uploadFinal uuids now st req).images ≠ [] :=
    List.ne_nil_of_mem hmem
  have hhandler := uploadHandler_eq uuids now st req hp hu hf
  rw [if_neg (by simp [List.isEmpty_iff, hne])] at hhandler
  have hETne : ("" : String) ≠ generateETag e.id := fun h =>
    generateETag_ne_empty e.id h.symm
  refine ⟨⟨true, (uploadFinal uuids now st req).images,
    (uploadFinal uuids now st req).errors⟩, by rw [hhandler], rfl,
    e, hmem, heu, hef, heurl, ?_⟩
  rw [hhandler]
  show downloadHandler (uploadFinal uuids now st req).st req.user_id
    e.id "" = _
  simp [downloadHandler, hdbF, hfsF, hETne]

/-- C1 witness: a concrete two-file batch (one valid part surrounded
by an invalid one) whose valid part round-trips. -/
theorem claim_c1_witness :
    ∃ resp,
      (uploadHandler ["uuidA", "uuidB"] 6 ⟨[], [], []⟩
        ⟨true, "u1", [⟨"doc.txt", 4, [9]⟩, ⟨"a.png", 3, [7, 8, 9]⟩]⟩).res =
        UpResult.outcome 200 resp ∧
      resp.success = true ∧
      ∃ e ∈ resp.images,
        e.user_id = "u1" ∧ e.filename = "a.png" ∧
        e.url = "/image/" ++ "u1" ++ "/" ++ e.id ∧
        downloadHandler
            (uploadHandler ["uuidA", "uuidB"] 6 ⟨[], [], []⟩
              ⟨true, "u1",
               [⟨"doc.txt", 4, [9]⟩, ⟨"a.png", 3, [7, 8, 9]⟩]⟩).st
            "u1" e.id "" =
          DlResult.ok (getContentType (filepathExt "a.png")) 3
            (generateETag e.id) [7, 8, 9] :=
  claim_c1_roundtrip ["uuidA", "uuidB"] 6 ⟨[], [], []⟩
    ⟨true, "u1", [⟨"doc.txt", 4, [9]⟩, ⟨"a.png", 3, [7, 8, 9]⟩]⟩
    [⟨"doc.txt", 4, [9]⟩] [] ⟨"a.png", 3, [7, 8, 9]⟩
    rfl (by decide) rfl (by decide) (by decide) (by decide) (by decide)
    (by decide) (by decide)

end ImageSvc
